import Mathlib

/- Verification of the auxiliary-engine coordination core of the lc0 fork
(hans-ekbrand/lc0): a shallow embedding of the queue, purge, enqueue-gate,
PV-encoder and result-classifier logic of src/mcts/auxengine.cc and
src/chess/position.cc, with theorems settling the specified properties. -/

namespace LcZeroAux

/-- Moves are an opaque 16-bit encoding in the source; modelled as naturals. -/
abbrev Move := Nat

/-- MCTS tree nodes are handled by reference in the source; modelled by id. -/
abbrev NodeId := Nat

/-- Modelled from the spec: the per-node auxiliary state tag of mcts/node.h
(not under src/), with values UNSET, PENDING (sentinel 0xFFFE) and DONE
(sentinel 0xFFFF). -/
inductive AuxTag where
  | UNSET
  | PENDING
  | DONE
deriving DecidableEq

/-- Modelled from the spec: Node::SetAuxEngineMove of mcts/node.h (not under
src/) stores a 16-bit sentinel on the node; 0xfffe marks PENDING and 0xffff
marks DONE; any other value is an ordinary move, leaving the tag UNSET. -/
def setAuxEngineMove (tags : NodeId → AuxTag) (n : NodeId) (v : Nat) :
    NodeId → AuxTag :=
  Function.update tags n
    (if v = 0xfffe then AuxTag.PENDING
     else if v = 0xffff then AuxTag.DONE
     else AuxTag.UNSET)

/-- State touched by the enqueue gate: the node queue
(search_stats_->persistent_queue_of_nodes), the per-node tags, and the
final_purge_run flag (mcts/search.h). -/
structure GateState where
  queue : List NodeId
  tags : NodeId → AuxTag
  finalPurgeRun : Bool

/-- SearchWorker::AuxMaybeEnqueueNode, src/mcts/auxengine.cc lines 59-88.
Early return on stop; under the queue lock, if the final purge has not run,
the node is marked with sentinel 0xfffe (PENDING) and then, only if the queue
holds fewer than 15000 entries, pushed (the notify of the condition variable
carries no state and is omitted). -/
def auxMaybeEnqueueNode (stop : Bool) (st : GateState) (n : NodeId) :
    GateState :=
  if stop then st
  else if st.finalPurgeRun = false then
    let tags1 := setAuxEngineMove st.tags n 0xfffe
    if st.queue.length < 15000 then
      { st with tags := tags1, queue := st.queue ++ [n] }
    else
      { st with tags := tags1 }
  else st

/-- State of the node queue together with the node tags, as seen by the two
purges of src/mcts/auxengine.cc. -/
structure NodeQueueState where
  queue : List NodeId
  tags : NodeId → AuxTag

/-- The pair loop of the start-of-move purge in Search::AuxEngineWorker,
src/mcts/auxengine.cc lines 278-301: for(i = 0; i < sizeAtStart; i += 2) pop a
node and then its witness; keep the node in the temporary queue when the
witness is the current root. The fuel argument is the number of loop
iterations. Returns the remaining queue after the pops and the temporary
queue of kept nodes. The source guarantees at least two elements remain at
each pop (sizeAtStart is an even lower bound of the queue size); with fewer
than two the model stops, as popping an empty std::queue is undefined. -/
def startPurgeIter (root : NodeId) : Nat → List NodeId →
    List NodeId × List NodeId
  | 0, q => (q, [])
  | fuel + 1, q =>
    match q with
    | n :: w :: rest =>
      let r := startPurgeIter root fuel rest
      (r.1, if w = root then n :: r.2 else r.2)
    | other => (other, [])

/-- The start-of-move purge of the node queue in Search::AuxEngineWorker,
src/mcts/auxengine.cc lines 275-301: pop sizeAtStart elements as
(node, witness) pairs, keep nodes whose witness equals root, then push the
kept nodes back behind whatever remained in the queue. No statement of the
loop writes to any node tag. -/
def startOfMovePurge (root : NodeId) (sizeAtStart : Nat)
    (st : NodeQueueState) : NodeQueueState :=
  let r := startPurgeIter root ((sizeAtStart + 1) / 2) st.queue
  { queue := r.1 ++ r.2, tags := st.tags }

/-- Parent pointers and own-edge moves of the MCTS tree, as read by the
end-of-move purge (GetParent, GetOwnEdge()->GetMove(flip)); the move is
modelled after rotation by the side-to-move flag. -/
structure Tree where
  parent : NodeId → Option NodeId
  ownEdgeMove : NodeId → Option Move

/-- The ancestor walk of the end-of-move purge in Search::AuxWait,
src/mcts/auxengine.cc lines 948-967: walk from n toward root; break on a
missing parent, grandparent or own edge; when the grandparent is root, keep
the pair (returning the witness n2) exactly when the rotated edge move equals
the played best move. Fuel bounds the walk, which the source bounds by tree
height. -/
def findWitness (t : Tree) (root : NodeId) (bestmove : Move) :
    Nat → NodeId → Option NodeId
  | 0, _ => none
  | fuel + 1, n2 =>
    if n2 = root then none
    else
      match t.parent n2 with
      | none => none
      | some p =>
        match t.parent p, t.ownEdgeMove p with
        | none, _ => none
        | some _, none => none
        | some gp, some m =>
          if gp = root then
            if m = bestmove then some n2 else none
          else findWitness t root bestmove fuel p

/-- The end-of-move purge of the node queue in Search::AuxWait,
src/mcts/auxengine.cc lines 934-982: pop every element, and for each node
whose ancestor walk finds a witness below the played move, push the node
followed by its witness; the temporary queue is then copied back in full.
No statement of the loop writes to any node tag. -/
def auxWaitNodePurge (t : Tree) (root : NodeId) (bestmove : Move)
    (fuel : Nat) (st : NodeQueueState) : NodeQueueState :=
  { queue :=
      st.queue.flatMap fun n =>
        match findWitness t root bestmove fuel n with
        | some w => [n, w]
        | none => [],
    tags := st.tags }

/-- The filter loop of the end-of-move PV purge in Search::AuxWait,
src/mcts/auxengine.cc lines 1035-1048: pop each PV, rotate its first move as
ParseMove does with the side-to-move flag, and when it equals the played best
move re-push the PV with its first move erased. -/
def auxWaitInnerPVFilter (rotate : Move → Move) (bestmove : Move) :
    List (List Move) → List (List Move)
  | [] => []
  | pv :: rest =>
    if rotate pv.headI = bestmove then
      pv.tail :: auxWaitInnerPVFilter rotate bestmove rest
    else auxWaitInnerPVFilter rotate bestmove rest

/-- The end-of-move purge of the PV queue in Search::AuxWait,
src/mcts/auxengine.cc lines 1025-1058, mirrored statement by statement: when
the queue is nonempty, line 1028 first assigns the empty queue to it, then
the filter loop runs over the (now empty) queue into a temporary queue, the
queue is reassigned empty (line 1050) and the temporary queue is copied
back. -/
def auxWaitPurgePV (rotate : Move → Move) (bestmove : Move)
    (q : List (List Move)) : List (List Move) :=
  if q.isEmpty then q
  else
    let q1 : List (List Move) := []
    let temp := auxWaitInnerPVFilter rotate bestmove q1
    let q2 : List (List Move) := []
    q2 ++ temp

/-- State touched by the PV enqueue tail of Search::AuxEncode_and_Enqueue:
the PV dedup cache (my_pv_cache_, keyed by string), the PV queue
(fast_track_extend_and_evaluate_queue_) and its two side queues of starting
depths and node supports. -/
structure PvEnqueueState where
  cache : List String
  pvQueue : List (List Move)
  depths : List Nat
  supports : List Nat
deriving DecidableEq

/-- Serialization of the integer-encoded PV moves in
Search::AuxEncode_and_Enqueue, src/mcts/auxengine.cc lines 585-590: all
elements comma-separated, no trailing comma. -/
def serializePV (pvMoves : List Nat) : String :=
  String.intercalate "," (pvMoves.map toString)

/-- The enqueue tail of Search::AuxEncode_and_Enqueue, src/mcts/auxengine.cc
lines 579-631: reject a PV with fewer than 4 encoded moves; serialize its
key; if the key is already in the PV cache return, otherwise insert the key;
then, only if the PV queue holds fewer than 20000 entries, push the move
vector with its starting depth and node support. The cache insertion happens
before the queue cap is checked. -/
def auxEnqueuePV (st : PvEnqueueState) (fullPV : List Move)
    (pvMoves : List Nat) (depth support : Nat) : PvEnqueueState :=
  if 4 ≤ pvMoves.length then
    let key := serializePV pvMoves
    if key ∈ st.cache then st
    else
      let st1 := { st with cache := st.cache ++ [key] }
      if st1.pvQueue.length < 20000 then
        { st1 with
          pvQueue := st1.pvQueue ++ [fullPV],
          depths := st1.depths ++ [depth],
          supports := st1.supports ++ [support] }
      else st1
  else st

/-- The depth-based reinsertion in Search::DoAuxEngine, src/mcts/auxengine.cc
lines 679-695: when the queue is nonempty, the depth is positive and exceeds
AuxEngineMaxDepth, and the random draw succeeds, the node is pushed back with
no cap check. The floating-point comparison of 1/depth against the draw of
the (ill-formed) uniform distribution is modelled by the Boolean roll. -/
def doAuxEngineMaybeReinsert (q : List NodeId) (n : NodeId)
    (depth maxDepth : Nat) (roll : Bool) : List NodeId :=
  if 0 < q.length then
    if 0 < depth ∧ maxDepth < depth then
      if roll then q ++ [n] else q
    else q
  else q

/-- The PV token loop of Search::AuxEncode_and_Enqueue, src/mcts/auxengine.cc
lines 552-576: while a token can be read and pv_length is below the reported
depth and below the absolute cap, parse the move (a failed parse breaks) and
append it; pv_length starts at 1 and increments per appended move. Tokens
are modelled pre-parsed: some m for a parseable move, none for a parse
failure. -/
def encodePVLoop : List (Option Nat) → Nat → Nat → Nat → List Nat
  | [], _, _, _ => []
  | tok :: rest, pvLength, depthReached, maxPv =>
    if pvLength < depthReached ∧ pvLength < maxPv then
      match tok with
      | none => []
      | some m => m :: encodePVLoop rest (pvLength + 1) depthReached maxPv
    else []

/-- The encoded PV moves produced for one accepted line: the loop starts at
pv_length = 1 with max_pv_length = 99 (src/mcts/auxengine.cc lines 530-533). -/
def auxEncodePVMoves (toks : List (Option Nat)) (depthReached : Nat) :
    List Nat :=
  encodePVLoop toks 1 depthReached 99

/-- Lines received from a helper during the read loop of
Search::DoAuxEngine: a well-formed bestmove line (which ends the loop), an
info line (a PV candidate), or any other line. The corrupted bestmove-info
resync line of lines 806-819 is outside this model, since the source
double-locks auxengine_stopped_mutex_ there and cannot proceed. -/
inductive HelperLine where
  | bestmove
  | info
  | other
deriving DecidableEq

/-- State of the read loop of Search::DoAuxEngine, src/mcts/auxengine.cc
lines 785-873: the local stopping flags, the per-slot auxengine_stopped_
flag, the count of stop commands written to the helper input, and the count
of AuxEncode_and_Enqueue calls made. -/
structure ReadState where
  stopping : Bool
  secondStopping : Bool
  thirdStopping : Bool
  engineStopped : Bool
  stopsWritten : Nat
  encodeCalls : Nat
deriving DecidableEq

/-- The read loop of Search::DoAuxEngine, src/mcts/auxengine.cc lines
785-873. The atomic stop flag is modelled as becoming true at line index
stopAt and staying true. A bestmove line breaks immediately. Otherwise, if
not yet stopping: on stop detection write one stop guarded by the per-slot
flag; else call the PV encoder on info lines in infinite mode. If already
stopping: the first further line only sets second_stopping; every later line
writes another (unguarded) stop and sets third_stopping. -/
def readLoop (infinite : Bool) (stopAt : Nat) :
    Nat → List HelperLine → ReadState → ReadState
  | _, [], st => st
  | i, line :: rest, st =>
    if line = HelperLine.bestmove then st
    else
      if st.stopping = false then
        if stopAt ≤ i then
          let st1 :=
            if st.engineStopped = false then
              { st with stopping := true, engineStopped := true,
                        stopsWritten := st.stopsWritten + 1 }
            else { st with stopping := true }
          readLoop infinite stopAt (i + 1) rest st1
        else
          let st1 :=
            if line = HelperLine.info ∧ infinite then
              { st with encodeCalls := st.encodeCalls + 1 }
            else st
          readLoop infinite stopAt (i + 1) rest st1
      else
        if st.secondStopping then
          readLoop infinite stopAt (i + 1) rest
            { st with stopsWritten := st.stopsWritten + 1,
                      thirdStopping := true }
        else
          readLoop infinite stopAt (i + 1) rest
            { st with secondStopping := true }

/-- Modelled from the spec: the GameResult enumeration of chess/position.h
(not under src/): UNDECIDED, DRAW, the two checkmate winners, the two
stalemate variants, and 36 R-mobility variants Gk.0/Gk.5 for k in 1..9 for
each winner (k is the Fin 9 value plus one; inCheck true is the Gk.0
variant). -/
inductive GameResult where
  | UNDECIDED
  | DRAW
  | WHITE_WON
  | BLACK_WON
  | WHITE_STALEMATE
  | BLACK_STALEMATE
  | WHITE_RMOBILITY (k : Fin 9) (inCheck : Bool)
  | BLACK_RMOBILITY (k : Fin 9) (inCheck : Bool)
deriving DecidableEq

/-- Unary negation of GameResult, src/chess/position.cc lines 88-92: BLACK_WON
maps to WHITE_WON, WHITE_WON maps to BLACK_WON, and any other value is
returned unchanged. -/
def negGameResult (res : GameResult) : GameResult :=
  if res = GameResult.BLACK_WON then GameResult.WHITE_WON
  else if res = GameResult.WHITE_WON then GameResult.BLACK_WON
  else res

/-- Conversion of a C++ bool to an arithmetic 0 or 1, as used by the packing
formula of PositionHistory::ComputeGameResultRmobility. -/
def boolToNat (b : Bool) : Nat := if b then 1 else 0

/-- The result packing of PositionHistory::ComputeGameResultRmobility,
src/chess/position.cc line 118: result_as_int = 1 + is_black_to_move * 2 * L
+ (not is_black_to_move) * 20 + (not is_black_to_move) * 2 * (9 - L) +
(not is_in_check), where L is the legal-move count of the adopted goal (the
guard at line 113 ensures L < 10, matching truncated subtraction). -/
def resultAsInt (isBlackToMove : Bool) (l : Nat) (isUnderCheck : Bool) :
    Nat :=
  1 + boolToNat isBlackToMove * 2 * l
    + boolToNat (!isBlackToMove) * 20
    + boolToNat (!isBlackToMove) * 2 * (9 - l)
    + boolToNat (!isUnderCheck)

/-- Packing demanded by the stated convention (the switch labels of
ComputeGameResultRmobility, src/chess/position.cc lines 138-258, and the spec
convention): black checkmate 1, black stalemate 2, black Gk.0 = 1 + 2k and
Gk.5 = 2 + 2k, draw 21, white stalemate 22, 23 unused, white Gk.0 = 22 + 2k
and Gk.5 = 23 + 2k ascending up to 41. Stated from the convention to compare
against the formula the source computes. -/
def specRmobilityInt (blackIsBestPlayer : Bool) (k : Nat) (inCheck : Bool) :
    Nat :=
  if blackIsBestPlayer then 1 + 2 * k + boolToNat (!inCheck)
  else 22 + 2 * k + boolToNat (!inCheck)

/-- C1: at the end-of-move purge of the PV queue in Search::AuxWait, a PV
whose first move equals the played best move is NOT retained: the source
clears the whole queue (line 1028) before the filter loop runs, so the purge
returns the empty queue on every nonempty input. The second conjunct shows
the filter loop by itself implements the claimed behaviour (retain with the
first move erased), exhibiting that the pre-clearing alone loses the PV. -/
theorem auxWaitPurgePV_drops_matching_pv :
    auxWaitPurgePV (fun m => m) 5 [[5, 7], [3, 4]] = [] ∧
    auxWaitInnerPVFilter (fun m => m) 5 [[5, 7], [3, 4]] = [[7]] := by
  constructor
  · rfl
  · rfl

/-- C2 counterexample: the start-of-move purge drops the pair (7, 9) because
the witness 9 is not the root 1, yet the tag of node 7 remains PENDING and is
not cleared to UNSET. -/
theorem startOfMovePurge_leaves_pending_tag :
    (startOfMovePurge 1 2
        ⟨[7, 9], fun n => if n = 7 then AuxTag.PENDING else AuxTag.UNSET⟩).queue
      = [] ∧
    (startOfMovePurge 1 2
        ⟨[7, 9], fun n => if n = 7 then AuxTag.PENDING else AuxTag.UNSET⟩).tags 7
      = AuxTag.PENDING ∧
    AuxTag.PENDING ≠ AuxTag.UNSET := by
  refine ⟨rfl, rfl, by decide⟩

/-- C2 as amended: neither the start-of-move purge of Search::AuxEngineWorker
nor the end-of-move purge of Search::AuxWait writes to any node tag; a
dropped node keeps its PENDING tag unchanged. -/
theorem purges_never_touch_tags :
    ∀ (root : NodeId) (k : Nat) (st : NodeQueueState) (t : Tree) (bm : Move)
      (fuel : Nat),
      (startOfMovePurge root k st).tags = st.tags ∧
      (auxWaitNodePurge t root bm fuel st).tags = st.tags := by
  intro root k st t bm fuel
  exact ⟨rfl, rfl⟩

/-- C3 counterexample: with the final purge not yet run and the node queue
already holding 15000 entries, the enqueue gate fails the push (the queue is
unchanged) but the node tag has already been set to PENDING and is left set
when the gate returns. -/
theorem auxMaybeEnqueueNode_cap_leaves_pending_set :
    (auxMaybeEnqueueNode false
        ⟨List.replicate 15000 0, fun _ => AuxTag.UNSET, false⟩ 1).queue
      = List.replicate 15000 0 ∧
    (auxMaybeEnqueueNode false
        ⟨List.replicate 15000 0, fun _ => AuxTag.UNSET, false⟩ 1).tags 1
      = AuxTag.PENDING := by
  constructor
  · simp only [auxMaybeEnqueueNode, List.length_replicate]
    norm_num
  · simp only [auxMaybeEnqueueNode, List.length_replicate]
    norm_num [setAuxEngineMove]

/-- C3 as amended: when the push fails because the queue holds 15000 or more
entries, the gate leaves the queue unchanged but the node marked PENDING
(the mark is written before the cap check); when the push fails because the
final purge has run, the gate returns with the whole state, tag included,
untouched. -/
theorem auxMaybeEnqueueNode_push_failure (st st2 : GateState) (n : NodeId)
    (hcap : 15000 ≤ st.queue.length) (hp : st.finalPurgeRun = false)
    (hp2 : st2.finalPurgeRun = true) :
    (auxMaybeEnqueueNode false st n).queue = st.queue ∧
    (auxMaybeEnqueueNode false st n).tags n = AuxTag.PENDING ∧
    auxMaybeEnqueueNode false st2 n = st2 := by
  refine ⟨?_, ?_, ?_⟩
  · simp [auxMaybeEnqueueNode, hp, Nat.not_lt.mpr hcap]
  · simp [auxMaybeEnqueueNode, hp, Nat.not_lt.mpr hcap, setAuxEngineMove]
  · simp [auxMaybeEnqueueNode, hp2]

/-- C3 witness: the amended theorem applied to a full queue and to a state
whose final purge has run. -/
theorem auxMaybeEnqueueNode_push_failure_witness :
    15000 ≤ ((⟨List.replicate 15000 0, fun _ => AuxTag.UNSET, false⟩ :
        GateState)).queue.length ∧
    ((⟨List.replicate 15000 0, fun _ => AuxTag.UNSET, false⟩ :
        GateState)).finalPurgeRun = false ∧
    ((⟨[], fun _ => AuxTag.UNSET, true⟩ : GateState)).finalPurgeRun = true ∧
    ((auxMaybeEnqueueNode false
        ⟨List.replicate 15000 0, fun _ => AuxTag.UNSET, false⟩ 2).queue
        = ((⟨List.replicate 15000 0, fun _ => AuxTag.UNSET, false⟩ :
            GateState)).queue ∧
      (auxMaybeEnqueueNode false
        ⟨List.replicate 15000 0, fun _ => AuxTag.UNSET, false⟩ 2).tags 2
        = AuxTag.PENDING ∧
      auxMaybeEnqueueNode false ⟨[], fun _ => AuxTag.UNSET, true⟩ 2
        = ⟨[], fun _ => AuxTag.UNSET, true⟩) :=
  ⟨by norm_num [List.length_replicate], rfl, rfl,
    auxMaybeEnqueueNode_push_failure _ _ 2
      (by norm_num [List.length_replicate]) rfl rfl⟩

/-- C4 counterexample: from an empty queue the enqueue gate pushes exactly
one element, the target node itself; no (target, witness) pair is pushed, so
in particular no witness equal to the current root accompanies the entry. -/
theorem auxMaybeEnqueueNode_pushes_single_element :
    (auxMaybeEnqueueNode false ⟨[], fun _ => AuxTag.UNSET, false⟩ 5).queue
      = [5] ∧
    ((auxMaybeEnqueueNode false
        ⟨[], fun _ => AuxTag.UNSET, false⟩ 5).queue).length ≠ 2 := by
  constructor
  · simp [auxMaybeEnqueueNode]
  · simp [auxMaybeEnqueueNode]

/-- Helper: the start-of-move pair loop run over a queue laid out as
consecutive (node, witness) pairs consumes everything and keeps exactly the
nodes whose witness is the current root, in order. -/
theorem startPurgeIter_on_pairs (root : NodeId)
    (ps : List (NodeId × NodeId)) :
    startPurgeIter root ps.length (ps.flatMap fun p => [p.1, p.2]) =
      ([], (ps.filter fun p => p.2 == root).map Prod.fst) := by
  induction ps with
  | nil => rfl
  | cons p ps ih =>
    by_cases h : p.2 = root
    · simp [startPurgeIter, ih, List.filter_cons, h]
    · simp [startPurgeIter, ih, List.filter_cons, h]

/-- C4 as amended: the enqueue gate pushes at most the bare target node (no
witness is attached at push time; witnesses are only attached by the
end-of-move purge), and the start-of-move purge over a queue of
(target, witness) pairs keeps exactly the targets whose stored witness equals
the current root. -/
theorem gate_pushes_bare_node_and_purge_keeps_root_witness_pairs
    (stop : Bool) (st : GateState) (n root : NodeId)
    (ps : List (NodeId × NodeId)) (tags : NodeId → AuxTag) :
    ((auxMaybeEnqueueNode stop st n).queue = st.queue ∨
      (auxMaybeEnqueueNode stop st n).queue = st.queue ++ [n]) ∧
    (startOfMovePurge root (2 * ps.length)
        ⟨ps.flatMap fun p => [p.1, p.2], tags⟩).queue
      = (ps.filter fun p => p.2 == root).map Prod.fst := by
  constructor
  · unfold auxMaybeEnqueueNode
    split
    · exact Or.inl rfl
    · split
      · split
        · exact Or.inr rfl
        · exact Or.inl rfl
      · exact Or.inl rfl
  · unfold startOfMovePurge
    have hfuel : (2 * ps.length + 1) / 2 = ps.length := by omega
    simp only [hfuel]
    rw [startPurgeIter_on_pairs]
    simp

/-- C5 counterexample: the depth-based reinsertion in Search::DoAuxEngine
pushes with no cap check; from a node queue of exactly 15000 entries (a state
satisfying the claimed bound) it produces 15001 entries, violating it. -/
theorem doAuxEngineMaybeReinsert_exceeds_cap :
    (doAuxEngineMaybeReinsert (List.replicate 15000 0) 1 2 1 true).length
      = 15001 ∧
    ¬ (doAuxEngineMaybeReinsert
        (List.replicate 15000 0) 1 2 1 true).length ≤ 15000 := by
  have h : (doAuxEngineMaybeReinsert
      (List.replicate 15000 0) 1 2 1 true).length = 15001 := by
    simp only [doAuxEngineMaybeReinsert, List.length_replicate,
      List.length_append, List.length_singleton]
    norm_num
  exact ⟨h, by omega⟩

/-- C5 as amended: the enqueue gate preserves the 15000-entry bound of the
node queue and the PV enqueue tail preserves the 20000-entry bound of the PV
queue (each pushes only below its cap); the depth-based reinsertion carries
no such check and breaks the node-queue bound. -/
theorem caps_preserved_by_gate_and_pv_push
    (stop : Bool) (st : GateState) (n : NodeId) (pst : PvEnqueueState)
    (fullPV : List Move) (pvMoves : List Nat) (d s : Nat)
    (h1 : st.queue.length ≤ 15000) (h2 : pst.pvQueue.length ≤ 20000) :
    (auxMaybeEnqueueNode stop st n).queue.length ≤ 15000 ∧
    (auxEnqueuePV pst fullPV pvMoves d s).pvQueue.length ≤ 20000 := by
  constructor
  · simp only [auxMaybeEnqueueNode]
    split
    · exact h1
    · split
      · split
        · rename_i hlt
          simp only [List.length_append, List.length_singleton]
          omega
        · exact h1
      · exact h1
  · simp only [auxEnqueuePV]
    split
    · split
      · exact h2
      · split
        · rename_i hlt
          simp only [List.length_append, List.length_singleton]
          omega
        · exact h2
    · exact h2

/-- C5 witness: the cap-preservation theorem applied to empty queues. -/
theorem caps_preserved_by_gate_and_pv_push_witness :
    ((⟨[], fun _ => AuxTag.UNSET, false⟩ : GateState)).queue.length ≤ 15000 ∧
    ((⟨[], [], [], []⟩ : PvEnqueueState)).pvQueue.length ≤ 20000 ∧
    ((auxMaybeEnqueueNode false
        ⟨[], fun _ => AuxTag.UNSET, false⟩ 3).queue.length ≤ 15000 ∧
      (auxEnqueuePV ⟨[], [], [], []⟩ [1] [1, 2, 3, 4] 0 0).pvQueue.length
        ≤ 20000) :=
  ⟨by simp, by simp,
    caps_preserved_by_gate_and_pv_push false _ 3 _ [1] [1, 2, 3, 4] 0 0
      (by simp) (by simp)⟩

/-- C6: the packing formula of ComputeGameResultRmobility contradicts the
stated convention (which matches the switch labels of the same function):
with white as best player it yields 21 (the DRAW value) at L = 9 in check and
22 (the WHITE_STALEMATE value) at L = 9 not in check, produces 23 (claimed
never produced) at L = 8 in check, and maps white G1.0 (L = 1, in check) to
37 instead of the 24 the convention demands; the black branch does match the
convention. -/
theorem resultAsInt_contradicts_packing_convention :
    resultAsInt false 9 true = 21 ∧
    resultAsInt false 9 false = 22 ∧
    resultAsInt false 8 true = 23 ∧
    resultAsInt false 1 true = 37 ∧
    specRmobilityInt false 1 true = 24 ∧
    resultAsInt true 1 true = 3 ∧
    specRmobilityInt true 1 true = 3 := by decide

/-- C7 counterexample: unary negation leaves a white R-mobility win variant
fixed instead of mapping it to the corresponding black variant, and likewise
leaves WHITE_STALEMATE fixed. -/
theorem negGameResult_fixes_white_rmobility_win :
    negGameResult (GameResult.WHITE_RMOBILITY 0 true)
      = GameResult.WHITE_RMOBILITY 0 true ∧
    GameResult.WHITE_RMOBILITY 0 true ≠ GameResult.BLACK_RMOBILITY 0 true ∧
    negGameResult GameResult.WHITE_STALEMATE
      = GameResult.WHITE_STALEMATE := by decide

/-- C7 as amended: unary negation swaps exactly the two checkmate winner
variants WHITE_WON and BLACK_WON; every other value, in particular DRAW, the
stalemate variants and all 36 R-mobility win variants, is a fixed point. -/
theorem negGameResult_swaps_only_checkmates (r : GameResult)
    (h1 : r ≠ GameResult.BLACK_WON) (h2 : r ≠ GameResult.WHITE_WON) :
    negGameResult r = r ∧
    negGameResult GameResult.BLACK_WON = GameResult.WHITE_WON ∧
    negGameResult GameResult.WHITE_WON = GameResult.BLACK_WON := by
  refine ⟨?_, by decide, by decide⟩
  simp [negGameResult, h1, h2]

/-- C7 witness: the amended negation theorem applied to DRAW. -/
theorem negGameResult_swaps_only_checkmates_witness :
    GameResult.DRAW ≠ GameResult.BLACK_WON ∧
    GameResult.DRAW ≠ GameResult.WHITE_WON ∧
    (negGameResult GameResult.DRAW = GameResult.DRAW ∧
      negGameResult GameResult.BLACK_WON = GameResult.WHITE_WON ∧
      negGameResult GameResult.WHITE_WON = GameResult.BLACK_WON) :=
  ⟨by decide, by decide,
    negGameResult_swaps_only_checkmates GameResult.DRAW (by decide)
      (by decide)⟩

/-- Helper: the PV token loop, started at counter pl, encodes at most d - pl
and at most m - pl moves. -/
theorem encodePVLoop_length_le (toks : List (Option Nat)) :
    ∀ (pl d m : Nat),
      (encodePVLoop toks pl d m).length ≤ d - pl ∧
      (encodePVLoop toks pl d m).length ≤ m - pl := by
  induction toks with
  | nil => intro pl d m; simp [encodePVLoop]
  | cons tok rest ih =>
    intro pl d m
    simp only [encodePVLoop]
    split
    · rename_i hcond
      cases tok with
      | none => simp
      | some mv =>
        simp only [List.length_cons]
        have h := ih (pl + 1) d m
        omega
    · simp

/-- C8: for every pre-parsed token stream and reported depth, the PV encoder
of Search::AuxEncode_and_Enqueue produces at most depthReached moves and at
most 99 moves (the loop admits a move only while the counter, started at 1,
is below both bounds). -/
theorem encodePV_truncated_at_depth_and_99 (toks : List (Option Nat))
    (depthReached : Nat) :
    (auxEncodePVMoves toks depthReached).length ≤ depthReached ∧
    (auxEncodePVMoves toks depthReached).length ≤ 99 := by
  have h := encodePVLoop_length_le toks 1 depthReached 99
  unfold auxEncodePVMoves
  omega

/-- C9 counterexample: with the stop flag raised from the first read onward
and the per-slot stopped flag clear, a helper that emits three info lines
before its bestmove receives two stop commands, not exactly one: one at
detection, and another on the third post-detection line via the
second_stopping workaround. -/
theorem readLoop_writes_two_stops :
    (readLoop true 0 0
        [HelperLine.info, HelperLine.info, HelperLine.info,
          HelperLine.bestmove]
        ⟨false, false, false, false, 0, 0⟩).stopsWritten = 2 ∧
    (2 : Nat) ≠ 1 := by decide

/-- Helper: once stopping is set, the read loop never calls the PV encoder
again and never retracts a written stop. -/
theorem readLoop_stopping_invariant (inf : Bool) (sa : Nat) :
    ∀ (ls : List HelperLine) (i : Nat) (st : ReadState),
      st.stopping = true →
      (readLoop inf sa i ls st).encodeCalls = st.encodeCalls ∧
      st.stopsWritten ≤ (readLoop inf sa i ls st).stopsWritten := by
  intro ls
  induction ls with
  | nil => intro i st h; simp [readLoop]
  | cons line rest ih =>
    intro i st h
    simp only [readLoop]
    split
    · exact ⟨rfl, le_refl _⟩
    · rw [if_neg (by simp [h])]
      split
      · have h2 := ih (i + 1)
          { st with stopsWritten := st.stopsWritten + 1,
                    thirdStopping := true } h
        dsimp only at h2
        exact ⟨h2.1, by omega⟩
      · exact ih (i + 1) { st with secondStopping := true } h

/-- C9 as amended: when the stop flag is up while the helper stream is being
read and the per-slot stopped flag is clear, the worker writes at least one
stop command to the helper (exactly one only when at most two further lines
precede bestmove; from the third post-detection line onward it writes an
extra stop per line as a workaround), and no PV is passed to the encoder
after detection. -/
theorem readLoop_stop_midstream_at_least_one_stop_no_pv
    (rest : List HelperLine) (inf : Bool) :
    1 ≤ (readLoop inf 0 0 (HelperLine.info :: rest)
        ⟨false, false, false, false, 0, 0⟩).stopsWritten ∧
    (readLoop inf 0 0 (HelperLine.info :: rest)
        ⟨false, false, false, false, 0, 0⟩).encodeCalls = 0 := by
  have hstep : readLoop inf 0 0 (HelperLine.info :: rest)
      ⟨false, false, false, false, 0, 0⟩
      = readLoop inf 0 1 rest ⟨true, false, false, true, 1, 0⟩ := by
    simp [readLoop]
  have h := readLoop_stopping_invariant inf 0 rest 1
    ⟨true, false, false, true, 1, 0⟩ rfl
  rw [hstep]
  exact ⟨h.2, h.1⟩

/-- C10: in the enqueue tail of Search::AuxEncode_and_Enqueue the PV key is
inserted into the PV cache before the 20000-entry cap of the PV queue is
checked; a new PV arriving at a full queue is silently dropped yet leaves its
key in the cache, and an identical PV presented afterwards is rejected by the
dedup probe and changes nothing. -/
theorem pv_cache_insert_precedes_cap_check
    (st : PvEnqueueState) (fullPV : List Move) (pvMoves : List Nat)
    (d s : Nat) (fullPV2 : List Move) (d2 s2 : Nat)
    (h4 : 4 ≤ pvMoves.length)
    (hnew : serializePV pvMoves ∉ st.cache)
    (hfull : 20000 ≤ st.pvQueue.length) :
    (auxEnqueuePV st fullPV pvMoves d s).pvQueue = st.pvQueue ∧
    serializePV pvMoves ∈ (auxEnqueuePV st fullPV pvMoves d s).cache ∧
    auxEnqueuePV (auxEnqueuePV st fullPV pvMoves d s) fullPV2 pvMoves d2 s2
      = auxEnqueuePV st fullPV pvMoves d s := by
  have hres : auxEnqueuePV st fullPV pvMoves d s
      = { st with cache := st.cache ++ [serializePV pvMoves] } := by
    simp only [auxEnqueuePV, if_pos h4, if_neg hnew]
    rw [if_neg (by omega)]
  refine ⟨by rw [hres], by rw [hres]; simp, ?_⟩
  rw [hres]
  simp only [auxEnqueuePV, if_pos h4]
  rw [if_pos (by simp)]

/-- C10 witness: the cache-before-cap theorem applied to an empty cache and a
PV queue already holding 20000 entries. -/
theorem pv_cache_insert_precedes_cap_check_witness :
    4 ≤ ([1, 2, 3, 4] : List Nat).length ∧
    serializePV [1, 2, 3, 4]
      ∉ ((⟨[], List.replicate 20000 [], [], []⟩ : PvEnqueueState)).cache ∧
    20000 ≤ ((⟨[], List.replicate 20000 [], [], []⟩ :
        PvEnqueueState)).pvQueue.length ∧
    ((auxEnqueuePV ⟨[], List.replicate 20000 [], [], []⟩ [9] [1, 2, 3, 4]
        0 0).pvQueue
        = ((⟨[], List.replicate 20000 [], [], []⟩ :
            PvEnqueueState)).pvQueue ∧
      serializePV [1, 2, 3, 4]
        ∈ (auxEnqueuePV ⟨[], List.replicate 20000 [], [], []⟩ [9]
            [1, 2, 3, 4] 0 0).cache ∧
      auxEnqueuePV
          (auxEnqueuePV ⟨[], List.replicate 20000 [], [], []⟩ [9]
            [1, 2, 3, 4] 0 0) [8] [1, 2, 3, 4] 0 0
        = auxEnqueuePV ⟨[], List.replicate 20000 [], [], []⟩ [9]
            [1, 2, 3, 4] 0 0) :=
  ⟨by decide, by decide, by norm_num [List.length_replicate],
    pv_cache_insert_precedes_cap_check _ [9] [1, 2, 3, 4] 0 0 [8] 0 0
      (by decide) (by decide) (by norm_num [List.length_replicate])⟩

end LcZeroAux
